import Mathlib

/-!
Shallow embedding of the hardware-parameter negotiation engine and duplex
stream lifecycle manager of the `snd-firewire-improve` repository
(`sound/firewire/motu/motu-pcm.c` and `sound/firewire/dice/dice-midi.c`),
together with theorems settling the frozen claims about them.

Machine unsigned integers are modelled as `Nat`; the sentinel `UINT_MAX`
appears explicitly where the source uses it.  Collaborator calls that can
fail (transport start, clock queries, buffer allocation) are modelled as
explicit oracle inputs carrying `Except`/`Option` results.
-/

/-- `UINT_MAX` of the 32-bit C `unsigned int`. -/
def UINT_MAX : Nat := 4294967295

/-- `struct snd_interval` of the ALSA core: a closed-or-open range with an
integrality flag, as used by `motu-pcm.c` (only the fields the source
touches are modelled). -/
@[ext]
structure SndInterval where
  min : Nat
  max : Nat
  openmin : Bool
  openmax : Bool
  integer : Bool
deriving DecidableEq, Repr

/-- Modelled from the spec: the host parameter framework's membership test
for a value in an interval (`snd_interval_test`, ALSA core, outside
`src/`): `val` lies in the range, respecting the open-endpoint flags. -/
def snd_interval_test (i : SndInterval) (val : Nat) : Bool :=
  !(decide (val < i.min) || (decide (i.min = val) && i.openmin) ||
    decide (i.max < val) || (decide (i.max = val) && i.openmax))

/-- `struct snd_motu_packet_format`: per-mode fixed and differed PCM chunk
counts (the C arrays indexed by mode become functions on mode indices). -/
structure snd_motu_packet_format where
  fixed_part_pcm_chunks : Nat → Nat
  differed_part_pcm_chunks : Nat → Nat

/-- The total PCM channel count of a mode:
`fixed_part_pcm_chunks[mode] + differed_part_pcm_chunks[mode]`. -/
def pcm_channels_of (formats : snd_motu_packet_format) (mode : Nat) : Nat :=
  formats.fixed_part_pcm_chunks mode + formats.differed_part_pcm_chunks mode

/-- Modelled from the spec: the Mode Table's global rate list
(`snd_motu_clock_rates`, declared in `motu.h` outside `src/`): six rates,
two per mode family, so entry `i` belongs to mode `i / 2`. -/
def snd_motu_clock_rates : List Nat := [44100, 48000, 88200, 96000, 176400, 192000]

/-- One step of the `[min,max]` accumulator fold shared by the two
constraint rules: if the pair qualifies, fold its value into the running
minimum and maximum, otherwise leave the accumulator unchanged. -/
def interval_fold_step (cond : Nat × Nat → Bool) (val : Nat × Nat → Nat)
    (acc : SndInterval) (p : Nat × Nat) : SndInterval :=
  if cond p then
    { acc with min := Nat.min acc.min (val p), max := Nat.max acc.max (val p) }
  else acc

/-- The empty sentinel accumulator `{ .min = UINT_MAX, .max = 0, .integer = 1 }`
both rules start from. -/
def sentinel_interval : SndInterval :=
  { min := UINT_MAX, max := 0, openmin := false, openmax := false, integer := true }

/-- `motu_rate_constraint` (motu-pcm.c:12-40): iterate the clock-rate array
with `mode = i / 2`; whenever the mode's total channel count passes
`snd_interval_test` against the candidate channel interval `c`, fold the
rate into the accumulator seeded with the empty sentinel.  The accumulated
interval is what the source then hands to `snd_interval_refine`. -/
def motu_rate_constraint (formats : snd_motu_packet_format)
    (clockRates : List Nat) (c : SndInterval) : SndInterval :=
  clockRates.enum.foldl
    (interval_fold_step
      (fun p => snd_interval_test c (pcm_channels_of formats (p.1 / 2)))
      (fun p => p.2))
    sentinel_interval

/-- `motu_channels_constraint` (motu-pcm.c:42-70): iterate the clock-rate
array with `mode = i / 2`; whenever the rate passes `snd_interval_test`
against the candidate rate interval `r`, fold the mode's total channel
count into the accumulator seeded with the empty sentinel. -/
def motu_channels_constraint (formats : snd_motu_packet_format)
    (clockRates : List Nat) (r : SndInterval) : SndInterval :=
  clockRates.enum.foldl
    (interval_fold_step
      (fun p => snd_interval_test r p.2)
      (fun p => pcm_channels_of formats (p.1 / 2)))
    sentinel_interval

/-- The rates of the (mode, rate) pairs whose total channel count lies in
the candidate channel interval `c` (the qualifying pairs of the spec's
`refineRateGivenChannels`). -/
def qualifying_rates (formats : snd_motu_packet_format)
    (clockRates : List Nat) (c : SndInterval) : List Nat :=
  (clockRates.enum.filter
    (fun p => snd_interval_test c (pcm_channels_of formats (p.1 / 2)))).map
    (fun p => p.2)

/-- The total channel counts of the (mode, rate) pairs whose rate lies in
the candidate rate interval `r` (the qualifying pairs of the spec's
`refineChannelsGivenRate`). -/
def qualifying_channels (formats : snd_motu_packet_format)
    (clockRates : List Nat) (r : SndInterval) : List Nat :=
  (clockRates.enum.filter (fun p => snd_interval_test r p.2)).map
    (fun p => pcm_channels_of formats (p.1 / 2))

/-- `struct snd_pcm_hardware`, restricted to the fields
`limit_channels_and_rates` and `pcm_open` touch: the supported-rates
bitmask, the channel-count window and the rate window. -/
structure snd_pcm_hardware where
  rates : Nat
  channels_min : Nat
  channels_max : Nat
  rate_min : Nat
  rate_max : Nat
deriving DecidableEq, Repr

/-- Modelled from the spec: the host framework's table of discrete rates
that may appear in the supported-rates bitmask (`snd_pcm_known_rates`,
ALSA core, outside `src/`). -/
def snd_pcm_known_rates : List Nat :=
  [5512, 8000, 11025, 16000, 22050, 32000, 44100, 48000,
   64000, 88200, 96000, 176400, 192000]

/-- Modelled from the spec: the legal-rate-to-bitmask encoding
(`snd_pcm_rate_to_rate_bit`, ALSA core, outside `src/`): the bit whose
index is the rate's position in the known-rates table, or the KNOT bit
for a rate not in the table. -/
def snd_pcm_rate_to_rate_bit (rate : Nat) : Nat :=
  match snd_pcm_known_rates.enum.find? (fun p => p.2 == rate) with
  | some p => 2 ^ p.1
  | none => 2 ^ 30

/-- Modelled from the spec: `snd_pcm_limit_hw_rates` (ALSA core, outside
`src/`): rebuild the `[rate_min, rate_max]` window from the lowest and
highest set bits of the supported-rates bitmask. -/
def snd_pcm_limit_hw_rates (hw : snd_pcm_hardware) : snd_pcm_hardware :=
  match (snd_pcm_known_rates.enum.filter
      (fun p => hw.rates.testBit p.1)).map (fun p => p.2) with
  | [] => hw
  | r :: rs =>
    { hw with rate_min := rs.foldl Nat.min r, rate_max := rs.foldl Nat.max r }

/-- One step of the `limit_channels_and_rates` loop body: skip entries
whose total channel count is zero, otherwise or the rate's bit into the
bitmask and fold the channel count into the channel window. -/
def limit_fold_step (formats : snd_motu_packet_format)
    (hw : snd_pcm_hardware) (p : Nat × Nat) : snd_pcm_hardware :=
  if pcm_channels_of formats (p.1 / 2) = 0 then hw
  else
    { hw with
      rates := hw.rates ||| snd_pcm_rate_to_rate_bit p.2,
      channels_min := Nat.min hw.channels_min (pcm_channels_of formats (p.1 / 2)),
      channels_max := Nat.max hw.channels_max (pcm_channels_of formats (p.1 / 2)) }

/-- `limit_channels_and_rates` (motu-pcm.c:72-97): reset the channel window
to the empty sentinel, iterate the clock-rate array with `mode = i / 2`
accumulating the bitmask and channel bounds over the modes with non-zero
channel count, then derive the rate window from the bitmask. -/
def limit_channels_and_rates (formats : snd_motu_packet_format)
    (clockRates : List Nat) (hw : snd_pcm_hardware) : snd_pcm_hardware :=
  snd_pcm_limit_hw_rates
    (clockRates.enum.foldl (limit_fold_step formats)
      { hw with channels_min := UINT_MAX, channels_max := 0 })

/-- `enum snd_motu_clock_source` (declared in `motu.h` outside `src/`),
modelled from the spec: the free-running internal source and a sample of
external sources. -/
inductive snd_motu_clock_source where
  | internal
  | adat_on_dsub
  | spdif_on_coax
  | unknown
deriving DecidableEq, Repr

/-- The per-device `struct snd_motu` state the modelled operations touch:
the stream-lock token, the active-substream counter, the duplex running
flag with its committed rate, the per-direction PCM-transfer flags and the
cached packet formats. -/
structure snd_motu where
  dev_lock : Bool
  substreams_counter : Nat
  running : Bool
  committed_rate : Nat
  tx_pcm_running : Bool
  rx_pcm_running : Bool
  tx_packet_formats : snd_motu_packet_format
  rx_packet_formats : snd_motu_packet_format

/-- Modelled from the spec: `snd_motu_stream_lock_try` (motu-stream.c,
outside `src/`), the Exclusivity Lock's tryAcquire: fail immediately with
`-EBUSY` when the token is outstanding, otherwise take it. -/
def snd_motu_stream_lock_try (motu : snd_motu) : Int × snd_motu :=
  if motu.dev_lock then (-16, motu) else (0, { motu with dev_lock := true })

/-- Modelled from the spec: `snd_motu_stream_lock_release` (motu-stream.c,
outside `src/`): give the token back. -/
def snd_motu_stream_lock_release (motu : snd_motu) : snd_motu :=
  { motu with dev_lock := false }

/-- Modelled from the spec: `snd_motu_stream_start_duplex` (motu-stream.c,
outside `src/`), the lifecycle manager's ensureStarted: a no-op success if
already running, otherwise ask the transport collaborator to bring up both
directions; on success record running and the committed rate, on failure
leave state unchanged and propagate the error. -/
def snd_motu_stream_start_duplex (motu : snd_motu) (rate : Nat)
    (transport : Except Int Unit) : Int × snd_motu :=
  if motu.running then (0, motu)
  else
    match transport with
    | Except.error e => (e, motu)
    | Except.ok _ => (0, { motu with running := true, committed_rate := rate })

/-- Modelled from the spec: `snd_motu_stream_stop_duplex` (motu-stream.c,
outside `src/`), the lifecycle manager's ensureStopped: inspect the
substream counter and tear the duplex pair down only when it is zero. -/
def snd_motu_stream_stop_duplex (motu : snd_motu) : snd_motu :=
  if motu.substreams_counter = 0 then { motu with running := false } else motu

/-- The collaborator outcomes one `pcm_open` call can observe: the packet
format cache refresh, the hw-rule registration, and the two clock provider
queries. -/
structure open_env where
  cache_err : Option Int
  rule_err : Option Int
  clock_source : Except Int snd_motu_clock_source
  clock_rate : Except Int Nat

/-- `init_hw_info` (motu-pcm.c:99-132) restricted to the modelled hardware
fields: select the packet formats by direction and apply
`limit_channels_and_rates` (rule registration failures are carried by the
oracle in `pcm_open`). -/
def init_hw_info (motu : snd_motu) (capture : Bool) (clockRates : List Nat)
    (hw : snd_pcm_hardware) : snd_pcm_hardware :=
  let formats := if capture then motu.tx_packet_formats else motu.rx_packet_formats
  limit_channels_and_rates formats clockRates hw

/-- `pcm_open` (motu-pcm.c:134-182): try the stream lock; refresh the
packet format cache; build the initial hardware window; query the clock
source, and when it is not internal or either direction is running PCM
transfer, query the current rate and collapse the rate window to it.
Every failure after the lock was taken releases it (`err_locked`). -/
def pcm_open (motu : snd_motu) (capture : Bool) (clockRates : List Nat)
    (hw : snd_pcm_hardware) (env : open_env) : Int × snd_motu × snd_pcm_hardware :=
  let (err, motu) := snd_motu_stream_lock_try motu
  if err < 0 then (err, motu, hw)
  else
    match env.cache_err with
    | some e => (e, snd_motu_stream_lock_release motu, hw)
    | none =>
      let hw := init_hw_info motu capture clockRates hw
      match env.rule_err with
      | some e => (e, snd_motu_stream_lock_release motu, hw)
      | none =>
        match env.clock_source with
        | Except.error e => (e, snd_motu_stream_lock_release motu, hw)
        | Except.ok src =>
          if src ≠ snd_motu_clock_source.internal ∨
             motu.tx_pcm_running = true ∨ motu.rx_pcm_running = true then
            match env.clock_rate with
            | Except.error e => (e, snd_motu_stream_lock_release motu, hw)
            | Except.ok rate =>
              (0, motu, { hw with rate_min := rate, rate_max := rate })
          else (0, motu, hw)

/-- `pcm_close` (motu-pcm.c:184-191): release the stream lock. -/
def pcm_close (motu : snd_motu) : Int × snd_motu :=
  (0, snd_motu_stream_lock_release motu)

/-- The PCM substream runtime states `capture_hw_params`/`capture_hw_free`
distinguish (`SNDRV_PCM_STATE_*`). -/
inductive snd_pcm_state where
  | OPEN
  | SETUP
  | PREPARED
  | RUNNING
deriving DecidableEq, Repr

/-- `capture_hw_params` (motu-pcm.c:193-211): allocate the buffer (failure
reported by the oracle aborts before any state change); increment the
substream counter exactly when the runtime state is `OPEN`. -/
def capture_hw_params (motu : snd_motu) (state : snd_pcm_state)
    (alloc_err : Option Int) : Int × snd_motu :=
  match alloc_err with
  | some e => (e, motu)
  | none =>
    if state = snd_pcm_state.OPEN then
      (0, { motu with substreams_counter := motu.substreams_counter + 1 })
    else (0, motu)

/-- `playback_hw_params` (motu-pcm.c:212-230): identical to the capture
direction. -/
def playback_hw_params (motu : snd_motu) (state : snd_pcm_state)
    (alloc_err : Option Int) : Int × snd_motu :=
  match alloc_err with
  | some e => (e, motu)
  | none =>
    if state = snd_pcm_state.OPEN then
      (0, { motu with substreams_counter := motu.substreams_counter + 1 })
    else (0, motu)

/-- `capture_hw_free` (motu-pcm.c:232-246): decrement the substream counter
exactly when the runtime state is no longer `OPEN`, then ask the lifecycle
manager to stop the duplex stream. -/
def capture_hw_free (motu : snd_motu) (state : snd_pcm_state) : Int × snd_motu :=
  let motu :=
    if state ≠ snd_pcm_state.OPEN then
      { motu with substreams_counter := motu.substreams_counter - 1 }
    else motu
  (0, snd_motu_stream_stop_duplex motu)

/-- `playback_hw_free` (motu-pcm.c:248-262): identical to the capture
direction. -/
def playback_hw_free (motu : snd_motu) (state : snd_pcm_state) : Int × snd_motu :=
  let motu :=
    if state ≠ snd_pcm_state.OPEN then
      { motu with substreams_counter := motu.substreams_counter - 1 }
    else motu
  (0, snd_motu_stream_stop_duplex motu)

/-- `capture_prepare` (motu-pcm.c:264-276): ask the lifecycle manager to
start the duplex stream at the runtime rate; the source inspects the
error only to gate `amdtp_stream_pcm_prepare` and then returns `0`
unconditionally. -/
def capture_prepare (motu : snd_motu) (rate : Nat)
    (transport : Except Int Unit) : Int × snd_motu :=
  (0, (snd_motu_stream_start_duplex motu rate transport).2)

/-- `playback_prepare` (motu-pcm.c:277-289): ask the lifecycle manager to
start the duplex stream at the runtime rate and return its error. -/
def playback_prepare (motu : snd_motu) (rate : Nat)
    (transport : Except Int Unit) : Int × snd_motu :=
  let (err, motu) := snd_motu_stream_start_duplex motu rate transport
  (err, motu)

/-- The per-device `struct snd_dice` state the modelled operations touch. -/
structure snd_dice where
  dev_lock : Bool
  substreams_counter : Nat
  running : Bool
deriving DecidableEq, Repr

/-- Modelled from the spec: `snd_dice_stream_lock_try` (dice-stream.c,
outside `src/`), the Exclusivity Lock's tryAcquire: fail immediately with
`-EBUSY` when the token is outstanding, otherwise take it. -/
def snd_dice_stream_lock_try (dice : snd_dice) : Int × snd_dice :=
  if dice.dev_lock then (-16, dice) else (0, { dice with dev_lock := true })

/-- Modelled from the spec: `snd_dice_stream_lock_release` (dice-stream.c,
outside `src/`): give the token back. -/
def snd_dice_stream_lock_release (dice : snd_dice) : snd_dice :=
  { dice with dev_lock := false }

/-- Modelled from the spec: `snd_dice_stream_start_duplex` (dice-stream.c,
outside `src/`), ensureStarted: a no-op success when already running,
otherwise ask the transport; on failure leave state unchanged and
propagate the error. -/
def snd_dice_stream_start_duplex (dice : snd_dice) (_rate : Nat)
    (transport : Except Int Unit) : Int × snd_dice :=
  if dice.running then (0, dice)
  else
    match transport with
    | Except.error e => (e, dice)
    | Except.ok _ => (0, { dice with running := true })

/-- Modelled from the spec: `snd_dice_stream_stop_duplex` (dice-stream.c,
outside `src/`), ensureStopped: tear the duplex pair down only when the
substream counter is zero. -/
def snd_dice_stream_stop_duplex (dice : snd_dice) : snd_dice :=
  if dice.substreams_counter = 0 then { dice with running := false } else dice

/-- `capture_open` (dice-midi.c:10-25): try the stream lock (failure is
returned at once); increment the substream counter; start the duplex
stream; on start failure release the lock and return the error. -/
def capture_open (dice : snd_dice) (transport : Except Int Unit) : Int × snd_dice :=
  let (err, dice) := snd_dice_stream_lock_try dice
  if err < 0 then (err, dice)
  else
    let dice := { dice with substreams_counter := dice.substreams_counter + 1 }
    let (err, dice) := snd_dice_stream_start_duplex dice 0 transport
    if err < 0 then (err, snd_dice_stream_lock_release dice)
    else (err, dice)

/-- `playback_open` (dice-midi.c:27-42): identical to the capture
direction. -/
def playback_open (dice : snd_dice) (transport : Except Int Unit) : Int × snd_dice :=
  let (err, dice) := snd_dice_stream_lock_try dice
  if err < 0 then (err, dice)
  else
    let dice := { dice with substreams_counter := dice.substreams_counter + 1 }
    let (err, dice) := snd_dice_stream_start_duplex dice 0 transport
    if err < 0 then (err, snd_dice_stream_lock_release dice)
    else (err, dice)

/-- `capture_close` (dice-midi.c:44-53): decrement the substream counter,
ask the lifecycle manager to stop the duplex stream, release the lock. -/
def capture_close (dice : snd_dice) : Int × snd_dice :=
  let dice := { dice with substreams_counter := dice.substreams_counter - 1 }
  let dice := snd_dice_stream_stop_duplex dice
  (0, snd_dice_stream_lock_release dice)

/-- `playback_close` (dice-midi.c:55-64): identical to the capture
direction. -/
def playback_close (dice : snd_dice) : Int × snd_dice :=
  let dice := { dice with substreams_counter := dice.substreams_counter - 1 }
  let dice := snd_dice_stream_stop_duplex dice
  (0, snd_dice_stream_lock_release dice)

/-- The Mode Table of the spec's concrete scenario:
mode0 fixed=2 var=0, mode1 fixed=2 var=2, every other mode contributes
zero channels. -/
def scenario_formats : snd_motu_packet_format :=
  { fixed_part_pcm_chunks := fun m => if m = 0 then 2 else if m = 1 then 2 else 0,
    differed_part_pcm_chunks := fun m => if m = 1 then 2 else 0 }

/- ------------------------------------------------------------------ -/
/- Generic lemmas about the `[min,max]` accumulator fold.              -/
/- ------------------------------------------------------------------ -/

theorem interval_fold_step_openmin (cond : Nat × Nat → Bool) (val : Nat × Nat → Nat)
    (a : SndInterval) (p : Nat × Nat) :
    (interval_fold_step cond val a p).openmin = a.openmin := by
  unfold interval_fold_step; split <;> rfl

theorem interval_fold_step_openmax (cond : Nat × Nat → Bool) (val : Nat × Nat → Nat)
    (a : SndInterval) (p : Nat × Nat) :
    (interval_fold_step cond val a p).openmax = a.openmax := by
  unfold interval_fold_step; split <;> rfl

theorem interval_fold_step_integer (cond : Nat × Nat → Bool) (val : Nat × Nat → Nat)
    (a : SndInterval) (p : Nat × Nat) :
    (interval_fold_step cond val a p).integer = a.integer := by
  unfold interval_fold_step; split <;> rfl

theorem interval_fold_openmin (cond : Nat × Nat → Bool) (val : Nat × Nat → Nat)
    (l : List (Nat × Nat)) (a : SndInterval) :
    (l.foldl (interval_fold_step cond val) a).openmin = a.openmin := by
  induction l generalizing a with
  | nil => rfl
  | cons p l ih =>
    rw [List.foldl_cons, ih, interval_fold_step_openmin]

theorem interval_fold_openmax (cond : Nat × Nat → Bool) (val : Nat × Nat → Nat)
    (l : List (Nat × Nat)) (a : SndInterval) :
    (l.foldl (interval_fold_step cond val) a).openmax = a.openmax := by
  induction l generalizing a with
  | nil => rfl
  | cons p l ih =>
    rw [List.foldl_cons, ih, interval_fold_step_openmax]

theorem interval_fold_integer (cond : Nat × Nat → Bool) (val : Nat × Nat → Nat)
    (l : List (Nat × Nat)) (a : SndInterval) :
    (l.foldl (interval_fold_step cond val) a).integer = a.integer := by
  induction l generalizing a with
  | nil => rfl
  | cons p l ih =>
    rw [List.foldl_cons, ih, interval_fold_step_integer]

theorem nat_min_eq (a b : Nat) : Nat.min a b = min a b := rfl

theorem nat_max_eq (a b : Nat) : Nat.max a b = max a b := rfl

theorem foldr_min_min (l : List Nat) (a b : Nat) :
    l.foldr Nat.min (Nat.min a b) = Nat.min b (l.foldr Nat.min a) := by
  induction l with
  | nil => simp only [List.foldr_nil, nat_min_eq]; omega
  | cons x l ih => simp only [List.foldr_cons, ih, nat_min_eq]; omega

theorem foldr_max_max (l : List Nat) (a b : Nat) :
    l.foldr Nat.max (Nat.max a b) = Nat.max b (l.foldr Nat.max a) := by
  induction l with
  | nil => simp only [List.foldr_nil, nat_max_eq]; omega
  | cons x l ih => simp only [List.foldr_cons, ih, nat_max_eq]; omega

theorem interval_fold_min (cond : Nat × Nat → Bool) (val : Nat × Nat → Nat)
    (l : List (Nat × Nat)) (a : SndInterval) :
    (l.foldl (interval_fold_step cond val) a).min
      = ((l.filter cond).map val).foldr Nat.min a.min := by
  induction l generalizing a with
  | nil => rfl
  | cons p l ih =>
    rw [List.foldl_cons, ih]
    by_cases h : cond p
    · rw [List.filter_cons_of_pos h, List.map_cons, List.foldr_cons]
      have hstep : (interval_fold_step cond val a p).min = Nat.min a.min (val p) := by
        unfold interval_fold_step; rw [if_pos h]
      rw [hstep, foldr_min_min]
    · rw [List.filter_cons_of_neg h]
      have hstep : interval_fold_step cond val a p = a := by
        unfold interval_fold_step; rw [if_neg h]
      rw [hstep]

theorem interval_fold_max (cond : Nat × Nat → Bool) (val : Nat × Nat → Nat)
    (l : List (Nat × Nat)) (a : SndInterval) :
    (l.foldl (interval_fold_step cond val) a).max
      = ((l.filter cond).map val).foldr Nat.max a.max := by
  induction l generalizing a with
  | nil => rfl
  | cons p l ih =>
    rw [List.foldl_cons, ih]
    by_cases h : cond p
    · rw [List.filter_cons_of_pos h, List.map_cons, List.foldr_cons]
      have hstep : (interval_fold_step cond val a p).max = Nat.max a.max (val p) := by
        unfold interval_fold_step; rw [if_pos h]
      rw [hstep, foldr_max_max]
    · rw [List.filter_cons_of_neg h]
      have hstep : interval_fold_step cond val a p = a := by
        unfold interval_fold_step; rw [if_neg h]
      rw [hstep]

theorem foldr_min_le_base (l : List Nat) (b : Nat) : l.foldr Nat.min b ≤ b := by
  induction l with
  | nil => exact Nat.le_refl b
  | cons x l ih => simp only [List.foldr_cons, nat_min_eq]; omega

theorem foldr_min_le_mem (l : List Nat) (b x : Nat) (hx : x ∈ l) :
    l.foldr Nat.min b ≤ x := by
  induction l with
  | nil => cases hx
  | cons y l ih =>
    rcases List.mem_cons.mp hx with h | h
    · subst h; simp only [List.foldr_cons, nat_min_eq]; omega
    · have := ih h; simp only [List.foldr_cons, nat_min_eq]; omega

theorem foldr_min_mem_or (l : List Nat) (b : Nat) :
    l.foldr Nat.min b = b ∨ l.foldr Nat.min b ∈ l := by
  induction l with
  | nil => exact Or.inl rfl
  | cons x l ih =>
    simp only [List.foldr_cons]
    rcases Nat.le_total x (l.foldr Nat.min b) with h | h
    · have hmin : Nat.min x (l.foldr Nat.min b) = x := by
        simp only [nat_min_eq]; omega
      rw [hmin]
      exact Or.inr (List.mem_cons_self x l)
    · have hmin : Nat.min x (l.foldr Nat.min b) = l.foldr Nat.min b := by
        simp only [nat_min_eq]; omega
      rw [hmin]
      rcases ih with h' | h'
      · exact Or.inl h'
      · exact Or.inr (List.mem_cons_of_mem x h')

theorem le_foldr_max_base (l : List Nat) (b : Nat) : b ≤ l.foldr Nat.max b := by
  induction l with
  | nil => exact Nat.le_refl b
  | cons x l ih => simp only [List.foldr_cons, nat_max_eq]; omega

theorem le_foldr_max_mem (l : List Nat) (b x : Nat) (hx : x ∈ l) :
    x ≤ l.foldr Nat.max b := by
  induction l with
  | nil => cases hx
  | cons y l ih =>
    rcases List.mem_cons.mp hx with h | h
    · subst h; simp only [List.foldr_cons, nat_max_eq]; omega
    · have := ih h; simp only [List.foldr_cons, nat_max_eq]; omega

theorem foldr_max_mem_or (l : List Nat) (b : Nat) :
    l.foldr Nat.max b = b ∨ l.foldr Nat.max b ∈ l := by
  induction l with
  | nil => exact Or.inl rfl
  | cons x l ih =>
    simp only [List.foldr_cons]
    rcases Nat.le_total x (l.foldr Nat.max b) with h | h
    · have hmax : Nat.max x (l.foldr Nat.max b) = l.foldr Nat.max b := by
        simp only [nat_max_eq]; omega
      rw [hmax]
      rcases ih with h' | h'
      · exact Or.inl h'
      · exact Or.inr (List.mem_cons_of_mem x h')
    · have hmax : Nat.max x (l.foldr Nat.max b) = x := by
        simp only [nat_max_eq]; omega
      rw [hmax]
      exact Or.inr (List.mem_cons_self x l)

theorem snd_mem_of_mem_enumFrom {α : Type} (p : Nat × α) (l : List α) (n : Nat)
    (h : p ∈ l.enumFrom n) : p.2 ∈ l := by
  induction l generalizing n with
  | nil => cases h
  | cons x l ih =>
    rcases List.mem_cons.mp h with h' | h'
    · rw [h']; exact List.mem_cons_self x l
    · exact List.mem_cons_of_mem x (ih (n + 1) h')

theorem snd_mem_of_mem_enum {α : Type} (p : Nat × α) (l : List α)
    (h : p ∈ l.enum) : p.2 ∈ l :=
  snd_mem_of_mem_enumFrom p l 0 h

theorem mem_qualifying_rates_mem (formats : snd_motu_packet_format)
    (clockRates : List Nat) (c : SndInterval) (r : Nat)
    (h : r ∈ qualifying_rates formats clockRates c) : r ∈ clockRates := by
  unfold qualifying_rates at h
  rcases List.mem_map.mp h with ⟨p, hp, hpr⟩
  have hpe := (List.mem_filter.mp hp).1
  exact hpr ▸ snd_mem_of_mem_enum p clockRates hpe

theorem mem_qualifying_channels_le (formats : snd_motu_packet_format)
    (clockRates : List Nat) (r : SndInterval) (x : Nat)
    (hc : ∀ m, pcm_channels_of formats m ≤ UINT_MAX)
    (h : x ∈ qualifying_channels formats clockRates r) : x ≤ UINT_MAX := by
  unfold qualifying_channels at h
  rcases List.mem_map.mp h with ⟨p, _, hpx⟩
  exact hpx ▸ hc (p.1 / 2)

/-- C1: for every mode table and candidate channel interval `c`,
`motu_rate_constraint` returns the accumulator whose min and max are the
minimum and maximum over the rates of all (mode, rate) pairs whose total
channel count (fixed + differed for the pair's mode) lies in `c`, built
from the sentinel `min = UINT_MAX, max = 0, integer = 1`; when no pair
qualifies, that empty sentinel itself is returned. -/
theorem motu_rate_constraint_minmax (formats : snd_motu_packet_format)
    (clockRates : List Nat) (c : SndInterval)
    (hb : ∀ r ∈ clockRates, r ≤ UINT_MAX) :
    ((motu_rate_constraint formats clockRates c).integer = true ∧
     (motu_rate_constraint formats clockRates c).openmin = false ∧
     (motu_rate_constraint formats clockRates c).openmax = false) ∧
    (∀ r ∈ qualifying_rates formats clockRates c,
      (motu_rate_constraint formats clockRates c).min ≤ r ∧
      r ≤ (motu_rate_constraint formats clockRates c).max) ∧
    (qualifying_rates formats clockRates c = [] →
      motu_rate_constraint formats clockRates c = sentinel_interval) ∧
    (qualifying_rates formats clockRates c ≠ [] →
      (motu_rate_constraint formats clockRates c).min ∈
        qualifying_rates formats clockRates c ∧
      (motu_rate_constraint formats clockRates c).max ∈
        qualifying_rates formats clockRates c) := by
  have hmin : (motu_rate_constraint formats clockRates c).min
      = (qualifying_rates formats clockRates c).foldr Nat.min UINT_MAX := by
    unfold motu_rate_constraint qualifying_rates
    exact interval_fold_min _ _ _ _
  have hmax : (motu_rate_constraint formats clockRates c).max
      = (qualifying_rates formats clockRates c).foldr Nat.max 0 := by
    unfold motu_rate_constraint qualifying_rates
    exact interval_fold_max _ _ _ _
  have hint : (motu_rate_constraint formats clockRates c).integer = true := by
    unfold motu_rate_constraint
    exact interval_fold_integer _ _ _ _
  have homin : (motu_rate_constraint formats clockRates c).openmin = false := by
    unfold motu_rate_constraint
    exact interval_fold_openmin _ _ _ _
  have homax : (motu_rate_constraint formats clockRates c).openmax = false := by
    unfold motu_rate_constraint
    exact interval_fold_openmax _ _ _ _
  refine ⟨⟨hint, homin, homax⟩, ?_, ?_, ?_⟩
  · intro r hr
    constructor
    · rw [hmin]
      exact foldr_min_le_mem _ _ r hr
    · rw [hmax]
      exact le_foldr_max_mem _ _ r hr
  · intro hempty
    ext
    · rw [hmin, hempty]; rfl
    · rw [hmax, hempty]; rfl
    · rw [homin]; rfl
    · rw [homax]; rfl
    · rw [hint]; rfl
  · intro hne
    obtain ⟨x, hx⟩ := List.exists_mem_of_ne_nil _ hne
    constructor
    · rcases foldr_min_mem_or (qualifying_rates formats clockRates c) UINT_MAX with
        heq | hmem
      · have hle : (motu_rate_constraint formats clockRates c).min ≤ x := by
          rw [hmin]; exact foldr_min_le_mem _ _ x hx
        have hxU : x ≤ UINT_MAX :=
          hb x (mem_qualifying_rates_mem formats clockRates c x hx)
        have hxe : (motu_rate_constraint formats clockRates c).min = x := by
          rw [hmin] at hle ⊢
          omega
        rw [hxe]; exact hx
      · rw [hmin]; exact hmem
    · rcases foldr_max_mem_or (qualifying_rates formats clockRates c) 0 with
        heq | hmem
      · have hle : x ≤ (motu_rate_constraint formats clockRates c).max := by
          rw [hmax]; exact le_foldr_max_mem _ _ x hx
        have hxe : (motu_rate_constraint formats clockRates c).max = x := by
          rw [hmax] at hle ⊢
          omega
        rw [hxe]; exact hx
      · rw [hmax]; exact hmem

theorem motu_rate_constraint_minmax_witness :
    (∀ r ∈ snd_motu_clock_rates, r ≤ UINT_MAX) ∧
    (((motu_rate_constraint scenario_formats snd_motu_clock_rates
        ⟨4, 4, false, false, true⟩).integer = true ∧
      (motu_rate_constraint scenario_formats snd_motu_clock_rates
        ⟨4, 4, false, false, true⟩).openmin = false ∧
      (motu_rate_constraint scenario_formats snd_motu_clock_rates
        ⟨4, 4, false, false, true⟩).openmax = false) ∧
     (∀ r ∈ qualifying_rates scenario_formats snd_motu_clock_rates
        ⟨4, 4, false, false, true⟩,
       (motu_rate_constraint scenario_formats snd_motu_clock_rates
         ⟨4, 4, false, false, true⟩).min ≤ r ∧
       r ≤ (motu_rate_constraint scenario_formats snd_motu_clock_rates
         ⟨4, 4, false, false, true⟩).max) ∧
     (qualifying_rates scenario_formats snd_motu_clock_rates
        ⟨4, 4, false, false, true⟩ = [] →
       motu_rate_constraint scenario_formats snd_motu_clock_rates
         ⟨4, 4, false, false, true⟩ = sentinel_interval) ∧
     (qualifying_rates scenario_formats snd_motu_clock_rates
        ⟨4, 4, false, false, true⟩ ≠ [] →
       (motu_rate_constraint scenario_formats snd_motu_clock_rates
         ⟨4, 4, false, false, true⟩).min ∈
         qualifying_rates scenario_formats snd_motu_clock_rates
           ⟨4, 4, false, false, true⟩ ∧
       (motu_rate_constraint scenario_formats snd_motu_clock_rates
         ⟨4, 4, false, false, true⟩).max ∈
         qualifying_rates scenario_formats snd_motu_clock_rates
           ⟨4, 4, false, false, true⟩)) :=
  ⟨by decide,
   motu_rate_constraint_minmax scenario_formats snd_motu_clock_rates
     ⟨4, 4, false, false, true⟩ (by decide)⟩

/-- C2: for every mode table and candidate rate interval `r`,
`motu_channels_constraint` returns the accumulator whose min and max are
the minimum and maximum total channel counts (fixed + differed) over
exactly the entries whose rate lies in `r`, built from the sentinel
`min = UINT_MAX, max = 0, integer = 1`; when no entry qualifies, that
empty sentinel itself is returned. -/
theorem motu_channels_constraint_minmax (formats : snd_motu_packet_format)
    (clockRates : List Nat) (r : SndInterval)
    (hc : ∀ m, pcm_channels_of formats m ≤ UINT_MAX) :
    ((motu_channels_constraint formats clockRates r).integer = true ∧
     (motu_channels_constraint formats clockRates r).openmin = false ∧
     (motu_channels_constraint formats clockRates r).openmax = false) ∧
    (∀ ch ∈ qualifying_channels formats clockRates r,
      (motu_channels_constraint formats clockRates r).min ≤ ch ∧
      ch ≤ (motu_channels_constraint formats clockRates r).max) ∧
    (qualifying_channels formats clockRates r = [] →
      motu_channels_constraint formats clockRates r = sentinel_interval) ∧
    (qualifying_channels formats clockRates r ≠ [] →
      (motu_channels_constraint formats clockRates r).min ∈
        qualifying_channels formats clockRates r ∧
      (motu_channels_constraint formats clockRates r).max ∈
        qualifying_channels formats clockRates r) := by
  have hmin : (motu_channels_constraint formats clockRates r).min
      = (qualifying_channels formats clockRates r).foldr Nat.min UINT_MAX := by
    unfold motu_channels_constraint qualifying_channels
    exact interval_fold_min _ _ _ _
  have hmax : (motu_channels_constraint formats clockRates r).max
      = (qualifying_channels formats clockRates r).foldr Nat.max 0 := by
    unfold motu_channels_constraint qualifying_channels
    exact interval_fold_max _ _ _ _
  have hint : (motu_channels_constraint formats clockRates r).integer = true := by
    unfold motu_channels_constraint
    exact interval_fold_integer _ _ _ _
  have homin : (motu_channels_constraint formats clockRates r).openmin = false := by
    unfold motu_channels_constraint
    exact interval_fold_openmin _ _ _ _
  have homax : (motu_channels_constraint formats clockRates r).openmax = false := by
    unfold motu_channels_constraint
    exact interval_fold_openmax _ _ _ _
  refine ⟨⟨hint, homin, homax⟩, ?_, ?_, ?_⟩
  · intro ch hch
    constructor
    · rw [hmin]
      exact foldr_min_le_mem _ _ ch hch
    · rw [hmax]
      exact le_foldr_max_mem _ _ ch hch
  · intro hempty
    ext
    · rw [hmin, hempty]; rfl
    · rw [hmax, hempty]; rfl
    · rw [homin]; rfl
    · rw [homax]; rfl
    · rw [hint]; rfl
  · intro hne
    obtain ⟨x, hx⟩ := List.exists_mem_of_ne_nil _ hne
    constructor
    · rcases foldr_min_mem_or (qualifying_channels formats clockRates r) UINT_MAX with
        heq | hmem
      · have hle : (motu_channels_constraint formats clockRates r).min ≤ x := by
          rw [hmin]; exact foldr_min_le_mem _ _ x hx
        have hxU : x ≤ UINT_MAX :=
          mem_qualifying_channels_le formats clockRates r x hc hx
        have hxe : (motu_channels_constraint formats clockRates r).min = x := by
          rw [hmin] at hle ⊢
          omega
        rw [hxe]; exact hx
      · rw [hmin]; exact hmem
    · rcases foldr_max_mem_or (qualifying_channels formats clockRates r) 0 with
        heq | hmem
      · have hle : x ≤ (motu_channels_constraint formats clockRates r).max := by
          rw [hmax]; exact le_foldr_max_mem _ _ x hx
        have hxe : (motu_channels_constraint formats clockRates r).max = x := by
          rw [hmax] at hle ⊢
          omega
        rw [hxe]; exact hx
      · rw [hmax]; exact hmem

theorem motu_channels_constraint_minmax_witness :
    (∀ m, pcm_channels_of scenario_formats m ≤ UINT_MAX) ∧
    (((motu_channels_constraint scenario_formats snd_motu_clock_rates
        ⟨44100, 44100, false, false, true⟩).integer = true ∧
      (motu_channels_constraint scenario_formats snd_motu_clock_rates
        ⟨44100, 44100, false, false, true⟩).openmin = false ∧
      (motu_channels_constraint scenario_formats snd_motu_clock_rates
        ⟨44100, 44100, false, false, true⟩).openmax = false) ∧
     (∀ ch ∈ qualifying_channels scenario_formats snd_motu_clock_rates
        ⟨44100, 44100, false, false, true⟩,
       (motu_channels_constraint scenario_formats snd_motu_clock_rates
         ⟨44100, 44100, false, false, true⟩).min ≤ ch ∧
       ch ≤ (motu_channels_constraint scenario_formats snd_motu_clock_rates
         ⟨44100, 44100, false, false, true⟩).max) ∧
     (qualifying_channels scenario_formats snd_motu_clock_rates
        ⟨44100, 44100, false, false, true⟩ = [] →
       motu_channels_constraint scenario_formats snd_motu_clock_rates
         ⟨44100, 44100, false, false, true⟩ = sentinel_interval) ∧
     (qualifying_channels scenario_formats snd_motu_clock_rates
        ⟨44100, 44100, false, false, true⟩ ≠ [] →
       (motu_channels_constraint scenario_formats snd_motu_clock_rates
         ⟨44100, 44100, false, false, true⟩).min ∈
         qualifying_channels scenario_formats snd_motu_clock_rates
           ⟨44100, 44100, false, false, true⟩ ∧
       (motu_channels_constraint scenario_formats snd_motu_clock_rates
         ⟨44100, 44100, false, false, true⟩).max ∈
         qualifying_channels scenario_formats snd_motu_clock_rates
           ⟨44100, 44100, false, false, true⟩)) := by
  have hc : ∀ m, pcm_channels_of scenario_formats m ≤ UINT_MAX := by
    intro m
    simp only [pcm_channels_of, scenario_formats, UINT_MAX]
    split_ifs <;> omega
  exact ⟨hc, motu_channels_constraint_minmax scenario_formats snd_motu_clock_rates
    ⟨44100, 44100, false, false, true⟩ hc⟩

theorem limit_hw_rates_fields (hw : snd_pcm_hardware) :
    (snd_pcm_limit_hw_rates hw).rates = hw.rates ∧
    (snd_pcm_limit_hw_rates hw).channels_min = hw.channels_min ∧
    (snd_pcm_limit_hw_rates hw).channels_max = hw.channels_max := by
  unfold snd_pcm_limit_hw_rates
  split <;> exact ⟨rfl, rfl, rfl⟩

theorem limit_fold_rates_mono (formats : snd_motu_packet_format)
    (l : List (Nat × Nat)) (hw : snd_pcm_hardware) (b : Nat)
    (h : hw.rates.testBit b = true) :
    ((l.foldl (limit_fold_step formats) hw).rates).testBit b = true := by
  induction l generalizing hw with
  | nil => exact h
  | cons p l ih =>
    rw [List.foldl_cons]
    apply ih
    unfold limit_fold_step
    split
    · exact h
    · simp only [Nat.testBit_lor, h, Bool.true_or]

theorem limit_fold_cmin_mono (formats : snd_motu_packet_format)
    (l : List (Nat × Nat)) (hw : snd_pcm_hardware) :
    (l.foldl (limit_fold_step formats) hw).channels_min ≤ hw.channels_min := by
  induction l generalizing hw with
  | nil => exact Nat.le_refl _
  | cons p l ih =>
    rw [List.foldl_cons]
    refine Nat.le_trans (ih _) ?_
    unfold limit_fold_step
    split
    · exact Nat.le_refl _
    · simp only [nat_min_eq]; omega

theorem limit_fold_cmax_mono (formats : snd_motu_packet_format)
    (l : List (Nat × Nat)) (hw : snd_pcm_hardware) :
    hw.channels_max ≤ (l.foldl (limit_fold_step formats) hw).channels_max := by
  induction l generalizing hw with
  | nil => exact Nat.le_refl _
  | cons p l ih =>
    rw [List.foldl_cons]
    refine Nat.le_trans ?_ (ih _)
    unfold limit_fold_step
    split
    · exact Nat.le_refl _
    · simp only [nat_max_eq]; omega

theorem limit_fold_mem (formats : snd_motu_packet_format)
    (l : List (Nat × Nat)) (hw : snd_pcm_hardware) (p : Nat × Nat)
    (hp : p ∈ l) (hnz : pcm_channels_of formats (p.1 / 2) ≠ 0) :
    (∀ b, (snd_pcm_rate_to_rate_bit p.2).testBit b = true →
      ((l.foldl (limit_fold_step formats) hw).rates).testBit b = true) ∧
    (l.foldl (limit_fold_step formats) hw).channels_min ≤
      pcm_channels_of formats (p.1 / 2) ∧
    pcm_channels_of formats (p.1 / 2) ≤
      (l.foldl (limit_fold_step formats) hw).channels_max := by
  induction l generalizing hw with
  | nil => cases hp
  | cons q l ih =>
    rcases List.mem_cons.mp hp with h | h
    · subst h
      rw [List.foldl_cons]
      have hstep : limit_fold_step formats hw p =
          { hw with
            rates := hw.rates ||| snd_pcm_rate_to_rate_bit p.2,
            channels_min := Nat.min hw.channels_min (pcm_channels_of formats (p.1 / 2)),
            channels_max := Nat.max hw.channels_max (pcm_channels_of formats (p.1 / 2)) } := by
        unfold limit_fold_step
        rw [if_neg hnz]
      rw [hstep]
      refine ⟨?_, ?_, ?_⟩
      · intro b hb
        apply limit_fold_rates_mono
        simp only [Nat.testBit_lor, hb, Bool.or_true]
      · refine Nat.le_trans (limit_fold_cmin_mono _ _ _) ?_
        simp only [nat_min_eq]; omega
      · refine Nat.le_trans ?_ (limit_fold_cmax_mono _ _ _)
        simp only [nat_max_eq]; omega
    · rw [List.foldl_cons]
      exact ih _ h

theorem limit_fold_filter (formats : snd_motu_packet_format)
    (l : List (Nat × Nat)) (hw : snd_pcm_hardware) :
    l.foldl (limit_fold_step formats) hw =
      (l.filter (fun p => pcm_channels_of formats (p.1 / 2) != 0)).foldl
        (limit_fold_step formats) hw := by
  induction l generalizing hw with
  | nil => rfl
  | cons p l ih =>
    rw [List.foldl_cons]
    by_cases h : pcm_channels_of formats (p.1 / 2) = 0
    · have hfilter : (p :: l).filter
          (fun p => pcm_channels_of formats (p.1 / 2) != 0) =
          l.filter (fun p => pcm_channels_of formats (p.1 / 2) != 0) := by
        apply List.filter_cons_of_neg
        simp [h]
      have hstep : limit_fold_step formats hw p = hw := by
        unfold limit_fold_step
        rw [if_pos h]
      rw [hfilter, hstep, ih]
    · have hfilter : (p :: l).filter
          (fun p => pcm_channels_of formats (p.1 / 2) != 0) =
          p :: l.filter (fun p => pcm_channels_of formats (p.1 / 2) != 0) := by
        apply List.filter_cons_of_pos
        simp [h]
      rw [hfilter, List.foldl_cons, ih]

/-- C6: for every mode table, the initial capability window computed by
`limit_channels_and_rates` includes, for every clock-rate entry whose mode
has a non-zero total channel count, that entry's rate bit in the
supported-rates bitmask and its channel count within
`[channels_min, channels_max]`; and entries with zero channel count
contribute nothing, since the fold equals the fold over the list with
those entries filtered out. -/
theorem limit_channels_and_rates_window (formats : snd_motu_packet_format)
    (clockRates : List Nat) (hw0 : snd_pcm_hardware) :
    (∀ p ∈ clockRates.enum, pcm_channels_of formats (p.1 / 2) ≠ 0 →
      (∀ b, (snd_pcm_rate_to_rate_bit p.2).testBit b = true →
        ((limit_channels_and_rates formats clockRates hw0).rates).testBit b = true) ∧
      (limit_channels_and_rates formats clockRates hw0).channels_min ≤
        pcm_channels_of formats (p.1 / 2) ∧
      pcm_channels_of formats (p.1 / 2) ≤
        (limit_channels_and_rates formats clockRates hw0).channels_max) ∧
    limit_channels_and_rates formats clockRates hw0 =
      snd_pcm_limit_hw_rates
        ((clockRates.enum.filter
            (fun p => pcm_channels_of formats (p.1 / 2) != 0)).foldl
          (limit_fold_step formats)
          { hw0 with channels_min := UINT_MAX, channels_max := 0 }) := by
  constructor
  · intro p hp hnz
    have hfold := limit_fold_mem formats clockRates.enum
      { hw0 with channels_min := UINT_MAX, channels_max := 0 } p hp hnz
    have hfields := limit_hw_rates_fields
      (clockRates.enum.foldl (limit_fold_step formats)
        { hw0 with channels_min := UINT_MAX, channels_max := 0 })
    refine ⟨?_, ?_, ?_⟩
    · intro b hb
      show (limit_channels_and_rates formats clockRates hw0).rates.testBit b = true
      unfold limit_channels_and_rates
      rw [hfields.1]
      exact hfold.1 b hb
    · unfold limit_channels_and_rates
      rw [hfields.2.1]
      exact hfold.2.1
    · unfold limit_channels_and_rates
      rw [hfields.2.2]
      exact hfold.2.2
  · unfold limit_channels_and_rates
    exact congrArg snd_pcm_limit_hw_rates (limit_fold_filter formats clockRates.enum _)

theorem limit_channels_and_rates_window_witness :
    (∀ p ∈ snd_motu_clock_rates.enum,
        pcm_channels_of scenario_formats (p.1 / 2) ≠ 0 →
      (∀ b, (snd_pcm_rate_to_rate_bit p.2).testBit b = true →
        ((limit_channels_and_rates scenario_formats snd_motu_clock_rates
            ⟨0, 0, 0, 0, 0⟩).rates).testBit b = true) ∧
      (limit_channels_and_rates scenario_formats snd_motu_clock_rates
          ⟨0, 0, 0, 0, 0⟩).channels_min ≤
        pcm_channels_of scenario_formats (p.1 / 2) ∧
      pcm_channels_of scenario_formats (p.1 / 2) ≤
        (limit_channels_and_rates scenario_formats snd_motu_clock_rates
          ⟨0, 0, 0, 0, 0⟩).channels_max) ∧
    limit_channels_and_rates scenario_formats snd_motu_clock_rates
        ⟨0, 0, 0, 0, 0⟩ =
      snd_pcm_limit_hw_rates
        ((snd_motu_clock_rates.enum.filter
            (fun p => pcm_channels_of scenario_formats (p.1 / 2) != 0)).foldl
          (limit_fold_step scenario_formats)
          { (⟨0, 0, 0, 0, 0⟩ : snd_pcm_hardware) with
            channels_min := UINT_MAX, channels_max := 0 }) :=
  limit_channels_and_rates_window scenario_formats snd_motu_clock_rates
    ⟨0, 0, 0, 0, 0⟩

/-- A dice device before any open: lock free, no substream counted, duplex
stream idle. -/
def dice0 : snd_dice :=
  { dev_lock := false, substreams_counter := 0, running := false }

/-- C3 (the code violates the claim): with the lock free, no substream
counted and the stream idle, a `capture_open` or `playback_open` whose
duplex start fails with a transport error returns that error with the
lock released, but leaves `substreams_counter` at 1 — one above its
pre-call value — because the error path releases only the lock and never
decrements the counter it incremented. -/
theorem dice_open_failed_start_keeps_counter :
    (capture_open dice0 (Except.error (-5))).1 = -5 ∧
    (capture_open dice0 (Except.error (-5))).2.substreams_counter = 1 ∧
    (capture_open dice0 (Except.error (-5))).2.dev_lock = false ∧
    (playback_open dice0 (Except.error (-5))).1 = -5 ∧
    (playback_open dice0 (Except.error (-5))).2.substreams_counter = 1 ∧
    dice0.substreams_counter = 0 := by
  decide

/-- A motu device with one substream counted and the duplex stream not yet
started, as seen by a prepare call. -/
def motu0 : snd_motu :=
  { dev_lock := true, substreams_counter := 1, running := false,
    committed_rate := 0, tx_pcm_running := false, rx_pcm_running := false,
    tx_packet_formats := scenario_formats, rx_packet_formats := scenario_formats }

/-- C4 (the code violates the claim for the capture direction): when the
duplex start fails with a transport error, `playback_prepare` returns
that error and the device state is unchanged, but `capture_prepare`
swallows the error and returns 0 (motu-pcm.c:275 `return 0`), although it
computed the very same failed start. -/
theorem prepare_error_propagation :
    (playback_prepare motu0 44100 (Except.error (-5))).1 = -5 ∧
    (playback_prepare motu0 44100 (Except.error (-5))).2 = motu0 ∧
    (snd_motu_stream_start_duplex motu0 44100 (Except.error (-5))).1 = -5 ∧
    (capture_prepare motu0 44100 (Except.error (-5))).1 = 0 ∧
    (capture_prepare motu0 44100 (Except.error (-5))).2 = motu0 :=
  ⟨rfl, rfl, rfl, rfl, rfl⟩

/-- C9: the stream lock is try-only and mutually exclusive: a successful
tryAcquire cannot be followed by another successful tryAcquire without a
release in between; while the token is outstanding a second acquire fails
immediately with `-EBUSY`; and every open handler (`pcm_open`,
`capture_open`, `playback_open`) surfaces that failure to its caller at
once, leaving the device state untouched. -/
theorem stream_lock_exclusive :
    (∀ m : snd_motu, (snd_motu_stream_lock_try m).1 = 0 →
      (snd_motu_stream_lock_try (snd_motu_stream_lock_try m).2).1 = -16) ∧
    (∀ m : snd_motu, m.dev_lock = true →
      snd_motu_stream_lock_try m = (-16, m) ∧
      ∀ (capture : Bool) (clockRates : List Nat) (hw : snd_pcm_hardware)
        (env : open_env),
        pcm_open m capture clockRates hw env = (-16, m, hw)) ∧
    (∀ d : snd_dice, (snd_dice_stream_lock_try d).1 = 0 →
      (snd_dice_stream_lock_try (snd_dice_stream_lock_try d).2).1 = -16) ∧
    (∀ d : snd_dice, d.dev_lock = true → ∀ tr : Except Int Unit,
      capture_open d tr = (-16, d) ∧ playback_open d tr = (-16, d)) := by
  refine ⟨?_, ?_, ?_, ?_⟩
  · intro m h
    by_cases hm : m.dev_lock
    · exfalso
      simp [snd_motu_stream_lock_try, hm] at h
    · simp [snd_motu_stream_lock_try, hm]
  · intro m hm
    constructor
    · simp [snd_motu_stream_lock_try, hm]
    · intro capture clockRates hw env
      simp [pcm_open, snd_motu_stream_lock_try, hm]
  · intro d h
    by_cases hd : d.dev_lock
    · exfalso
      simp [snd_dice_stream_lock_try, hd] at h
    · simp [snd_dice_stream_lock_try, hd]
  · intro d hd tr
    constructor
    · simp [capture_open, snd_dice_stream_lock_try, hd]
    · simp [playback_open, snd_dice_stream_lock_try, hd]

/-- C7: during `pcm_open` (lock acquired, format cache and rule
registration succeeded): if the clock-source query fails, the open aborts
with that error and the lock is released; if it reports a non-internal
source, or either direction is already running PCM transfer, the rate
window collapses to the single point `[rate, rate]` reported by the
clock-rate query — whose failure likewise aborts the open with the lock
released; and if the source is internal with both directions idle, the
window built by `init_hw_info` is returned unchanged. -/
theorem pcm_open_clock_policy (motu : snd_motu) (capture : Bool)
    (clockRates : List Nat) (hw0 : snd_pcm_hardware) (env : open_env)
    (hlock : motu.dev_lock = false)
    (hcache : env.cache_err = none)
    (hrule : env.rule_err = none) :
    (∀ e, env.clock_source = Except.error e →
      pcm_open motu capture clockRates hw0 env =
        (e, { motu with dev_lock := false },
         init_hw_info motu capture clockRates hw0)) ∧
    (∀ src, env.clock_source = Except.ok src →
      ((src ≠ snd_motu_clock_source.internal ∨ motu.tx_pcm_running = true ∨
          motu.rx_pcm_running = true) →
        (∀ e, env.clock_rate = Except.error e →
          pcm_open motu capture clockRates hw0 env =
            (e, { motu with dev_lock := false },
             init_hw_info motu capture clockRates hw0)) ∧
        (∀ rate, env.clock_rate = Except.ok rate →
          pcm_open motu capture clockRates hw0 env =
            (0, { motu with dev_lock := true },
             { init_hw_info motu capture clockRates hw0 with
               rate_min := rate, rate_max := rate }))) ∧
      (src = snd_motu_clock_source.internal → motu.tx_pcm_running = false →
        motu.rx_pcm_running = false →
        pcm_open motu capture clockRates hw0 env =
          (0, { motu with dev_lock := true },
           init_hw_info motu capture clockRates hw0))) := by
  constructor
  · intro e hsrc
    simp [pcm_open, snd_motu_stream_lock_try, snd_motu_stream_lock_release,
      hlock, hcache, hrule, hsrc, init_hw_info]
  · intro src hsrc
    constructor
    · intro hcond
      constructor
      · intro e hrate
        simp [pcm_open, snd_motu_stream_lock_try, snd_motu_stream_lock_release,
          init_hw_info, hlock, hcache, hrule, hsrc, hrate, hcond]
      · intro rate hrate
        simp [pcm_open, snd_motu_stream_lock_try, snd_motu_stream_lock_release,
          init_hw_info, hlock, hcache, hrule, hsrc, hrate, hcond]
    · intro hint htx hrx
      simp [pcm_open, snd_motu_stream_lock_try, snd_motu_stream_lock_release,
        init_hw_info, hlock, hcache, hrule, hsrc, hint, htx, hrx]

/-- A motu device before any open: lock free, nothing counted or running. -/
def motu_idle : snd_motu :=
  { dev_lock := false, substreams_counter := 0, running := false,
    committed_rate := 0, tx_pcm_running := false, rx_pcm_running := false,
    tx_packet_formats := scenario_formats, rx_packet_formats := scenario_formats }

/-- Collaborator outcomes for one fully successful open on an
internally-clocked idle device. -/
def env0 : open_env :=
  { cache_err := none, rule_err := none,
    clock_source := Except.ok snd_motu_clock_source.internal,
    clock_rate := Except.ok 48000 }

theorem pcm_open_clock_policy_witness :
    pcm_open motu_idle true snd_motu_clock_rates ⟨0, 0, 0, 0, 0⟩ env0 =
      (0, { motu_idle with dev_lock := true },
       init_hw_info motu_idle true snd_motu_clock_rates ⟨0, 0, 0, 0, 0⟩) :=
  ((pcm_open_clock_policy motu_idle true snd_motu_clock_rates ⟨0, 0, 0, 0, 0⟩ env0
      rfl rfl rfl).2 snd_motu_clock_source.internal rfl).2 rfl rfl rfl

theorem capture_close_fields (d : snd_dice) :
    (capture_close d).2.substreams_counter = d.substreams_counter - 1 ∧
    ((capture_close d).2.running =
      if d.substreams_counter - 1 = 0 then false else d.running) ∧
    (capture_close d).2.dev_lock = false := by
  unfold capture_close snd_dice_stream_stop_duplex snd_dice_stream_lock_release
  by_cases hz : d.substreams_counter - 1 = 0 <;> simp [hz]

/-- Iterated `capture_close` calls. -/
def dice_close_iter : Nat → snd_dice → snd_dice
  | 0, d => d
  | k + 1, d => dice_close_iter k (capture_close d).2

theorem dice_close_iter_spec (k : Nat) (d : snd_dice)
    (hk : k ≤ d.substreams_counter) (hr : d.running = true)
    (hpos : 0 < d.substreams_counter) :
    (dice_close_iter k d).substreams_counter = d.substreams_counter - k ∧
    ((dice_close_iter k d).running = true ↔ k < d.substreams_counter) := by
  induction k generalizing d with
  | zero =>
    refine ⟨rfl, ?_⟩
    rw [show dice_close_iter 0 d = d from rfl, hr]
    simp [hpos]
  | succ k ih =>
    obtain ⟨hc1, hr1, -⟩ := capture_close_fields d
    by_cases hz : d.substreams_counter - 1 = 0
    · have hk0 : k = 0 := by omega
      subst hk0
      rw [show dice_close_iter 1 d = (capture_close d).2 from rfl]
      refine ⟨by rw [hc1], ?_⟩
      rw [hr1, if_pos hz]
      constructor
      · intro h; exact absurd h (by decide)
      · intro h; omega
    · have hr' : (capture_close d).2.running = true := by
        rw [hr1, if_neg hz]; exact hr
      have h := ih (capture_close d).2 (by rw [hc1]; omega) hr' (by rw [hc1]; omega)
      rw [show dice_close_iter (k + 1) d = dice_close_iter k (capture_close d).2
        from rfl]
      refine ⟨?_, ?_⟩
      · rw [h.1, hc1]; omega
      · rw [h.2, hc1]
        omega

/-- C8: on every close path the substream counter is decremented before
the stop operation is invoked, so the stop sees the post-departure count
and the duplex stream is torn down only when no substream remains: from N
open substreams (counter N, stream running), k closes leave counter N - k
with the stream still running exactly while k < N, and the N-th close
stops it; the motu `capture_hw_free` path likewise decrements first (its
runtime state having left OPEN) and its stop inspects the decremented
counter. -/
theorem close_stop_ordering (N k : Nat) (hN : 1 ≤ N) (hk : k ≤ N) :
    ((dice_close_iter k
        { dev_lock := true, substreams_counter := N,
          running := true }).substreams_counter = N - k ∧
     ((dice_close_iter k
        { dev_lock := true, substreams_counter := N,
          running := true }).running = true ↔ k < N)) ∧
    (∀ (m : snd_motu) (st : snd_pcm_state), st ≠ snd_pcm_state.OPEN →
      (capture_hw_free m st).2.substreams_counter = m.substreams_counter - 1 ∧
      ((capture_hw_free m st).2.running = true ↔
        (m.substreams_counter - 1 ≠ 0 ∧ m.running = true))) := by
  constructor
  · exact dice_close_iter_spec k _ hk rfl hN
  · intro m st hst
    by_cases hz : m.substreams_counter - 1 = 0 <;>
      simp [capture_hw_free, snd_motu_stream_stop_duplex, hst, hz]

theorem close_stop_ordering_witness :
    (1 ≤ 2 ∧ 1 ≤ 2) ∧
    (((dice_close_iter 1
        { dev_lock := true, substreams_counter := 2,
          running := true }).substreams_counter = 2 - 1 ∧
      ((dice_close_iter 1
        { dev_lock := true, substreams_counter := 2,
          running := true }).running = true ↔ 1 < 2)) ∧
     (∀ (m : snd_motu) (st : snd_pcm_state), st ≠ snd_pcm_state.OPEN →
       (capture_hw_free m st).2.substreams_counter = m.substreams_counter - 1 ∧
       ((capture_hw_free m st).2.running = true ↔
         (m.substreams_counter - 1 ≠ 0 ∧ m.running = true)))) :=
  ⟨⟨by decide, by decide⟩, close_stop_ordering 2 1 (by decide) (by decide)⟩

/-- Modelled from the spec: the host PCM framework's hw_params entry: it
invokes the driver callback and, when that succeeds, moves the substream
runtime state from `OPEN` to `SETUP` (so a repeated hw_params call no
longer sees `OPEN`). -/
def snd_pcm_hw_params_op (motu : snd_motu) (st : snd_pcm_state)
    (alloc_err : Option Int) : Int × snd_pcm_state × snd_motu :=
  match capture_hw_params motu st alloc_err with
  | (err, motu') =>
    if err < 0 then (err, st, motu') else (0, snd_pcm_state.SETUP, motu')

/-- Modelled from the spec: the host PCM framework's hw_free entry: it
invokes the driver callback and returns the substream to `OPEN`. -/
def snd_pcm_hw_free_op (motu : snd_motu) (st : snd_pcm_state) :
    Int × snd_pcm_state × snd_motu :=
  match capture_hw_free motu st with
  | (err, motu') => (err, snd_pcm_state.OPEN, motu')

/-- Repeated successful hw_params calls on the same substream before any
hw_free. -/
def hw_params_iter : Nat → snd_pcm_state → snd_motu → snd_pcm_state × snd_motu
  | 0, st, m => (st, m)
  | k + 1, st, m =>
    hw_params_iter k (snd_pcm_hw_params_op m st none).2.1
      (snd_pcm_hw_params_op m st none).2.2

theorem hw_params_iter_setup (k : Nat) (m : snd_motu) :
    hw_params_iter k snd_pcm_state.SETUP m = (snd_pcm_state.SETUP, m) := by
  induction k generalizing m with
  | zero => rfl
  | succ k ih =>
    rw [show hw_params_iter (k + 1) snd_pcm_state.SETUP m =
      hw_params_iter k (snd_pcm_hw_params_op m snd_pcm_state.SETUP none).2.1
        (snd_pcm_hw_params_op m snd_pcm_state.SETUP none).2.2 from rfl]
    have hop : snd_pcm_hw_params_op m snd_pcm_state.SETUP none =
        (0, snd_pcm_state.SETUP, m) := by
      simp [snd_pcm_hw_params_op, capture_hw_params]
    rw [hop]
    exact ih m

/-- C10: the substream counter is incremented in hw_params only when the
runtime state is `OPEN` and decremented in hw_free only when the state is
no longer `OPEN`; hence n ≥ 1 repeated hw_params calls before hw_free
increment the counter exactly once (the framework having moved the state
to `SETUP` after the first), and a matched hw_params/hw_free pair leaves
the counter at its original value. -/
theorem hw_params_counter_protocol (n : Nat) (m : snd_motu) (hn : 1 ≤ n) :
    (∀ (m' : snd_motu) (st : snd_pcm_state),
      (capture_hw_params m' st none).2.substreams_counter =
        (if st = snd_pcm_state.OPEN then m'.substreams_counter + 1
         else m'.substreams_counter) ∧
      (playback_hw_params m' st none).2.substreams_counter =
        (if st = snd_pcm_state.OPEN then m'.substreams_counter + 1
         else m'.substreams_counter) ∧
      (capture_hw_free m' st).2.substreams_counter =
        (if st = snd_pcm_state.OPEN then m'.substreams_counter
         else m'.substreams_counter - 1)) ∧
    ((hw_params_iter n snd_pcm_state.OPEN m).1 = snd_pcm_state.SETUP ∧
     (hw_params_iter n snd_pcm_state.OPEN m).2.substreams_counter =
       m.substreams_counter + 1) ∧
    (snd_pcm_hw_free_op (hw_params_iter n snd_pcm_state.OPEN m).2
        (hw_params_iter n snd_pcm_state.OPEN m).1).2.2.substreams_counter =
      m.substreams_counter := by
  have hiter : hw_params_iter n snd_pcm_state.OPEN m =
      (snd_pcm_state.SETUP,
       { m with substreams_counter := m.substreams_counter + 1 }) := by
    obtain ⟨k, rfl⟩ : ∃ k, n = k + 1 := ⟨n - 1, by omega⟩
    rw [show hw_params_iter (k + 1) snd_pcm_state.OPEN m =
      hw_params_iter k (snd_pcm_hw_params_op m snd_pcm_state.OPEN none).2.1
        (snd_pcm_hw_params_op m snd_pcm_state.OPEN none).2.2 from rfl]
    have hop : snd_pcm_hw_params_op m snd_pcm_state.OPEN none =
        (0, snd_pcm_state.SETUP,
         { m with substreams_counter := m.substreams_counter + 1 }) := by
      simp [snd_pcm_hw_params_op, capture_hw_params]
    rw [hop]
    exact hw_params_iter_setup k _
  refine ⟨?_, ?_, ?_⟩
  · intro m' st
    refine ⟨?_, ?_, ?_⟩ <;>
      by_cases h : st = snd_pcm_state.OPEN <;>
        simp [capture_hw_params, playback_hw_params, capture_hw_free,
          snd_motu_stream_stop_duplex, h] <;>
        split <;> rfl
  · rw [hiter]
    exact ⟨rfl, rfl⟩
  · rw [hiter]
    simp only [snd_pcm_hw_free_op, capture_hw_free, snd_motu_stream_stop_duplex]
    split
    · split <;> simp
    · rename_i h
      exact absurd (by decide) h

theorem hw_params_counter_protocol_witness :
    1 ≤ 2 ∧
    ((∀ (m' : snd_motu) (st : snd_pcm_state),
      (capture_hw_params m' st none).2.substreams_counter =
        (if st = snd_pcm_state.OPEN then m'.substreams_counter + 1
         else m'.substreams_counter) ∧
      (playback_hw_params m' st none).2.substreams_counter =
        (if st = snd_pcm_state.OPEN then m'.substreams_counter + 1
         else m'.substreams_counter) ∧
      (capture_hw_free m' st).2.substreams_counter =
        (if st = snd_pcm_state.OPEN then m'.substreams_counter
         else m'.substreams_counter - 1)) ∧
    ((hw_params_iter 2 snd_pcm_state.OPEN motu_idle).1 = snd_pcm_state.SETUP ∧
     (hw_params_iter 2 snd_pcm_state.OPEN motu_idle).2.substreams_counter =
       motu_idle.substreams_counter + 1) ∧
    (snd_pcm_hw_free_op (hw_params_iter 2 snd_pcm_state.OPEN motu_idle).2
        (hw_params_iter 2 snd_pcm_state.OPEN motu_idle).1).2.2.substreams_counter =
      motu_idle.substreams_counter) :=
  ⟨by decide, hw_params_counter_protocol 2 motu_idle (by decide)⟩

theorem stream_lock_exclusive_witness :
    (snd_motu_stream_lock_try motu_idle).1 = 0 ∧
    (snd_motu_stream_lock_try (snd_motu_stream_lock_try motu_idle).2).1 = -16 ∧
    capture_open { dice0 with dev_lock := true } (Except.ok ()) =
      (-16, { dice0 with dev_lock := true }) :=
  ⟨rfl, stream_lock_exclusive.1 motu_idle rfl,
   (stream_lock_exclusive.2.2.2 { dice0 with dev_lock := true } rfl
     (Except.ok ())).1⟩

/-- C5: on the concrete scenario Mode Table (mode0 fixed=2 var=0 with
rates 44100 and 48000, mode1 fixed=2 var=2 with rates 88200 and 96000),
the channel interval [4,4] refines the rate interval to exactly
[88200,96000] and the rate interval [44100,44100] refines the channel
interval to exactly [2,2]. -/
theorem scenario_refinement :
    motu_rate_constraint scenario_formats snd_motu_clock_rates
      { min := 4, max := 4, openmin := false, openmax := false, integer := true } =
      { min := 88200, max := 96000, openmin := false, openmax := false,
        integer := true } ∧
    motu_channels_constraint scenario_formats snd_motu_clock_rates
      { min := 44100, max := 44100, openmin := false, openmax := false,
        integer := true } =
      { min := 2, max := 2, openmin := false, openmax := false, integer := true } := by
  constructor <;> decide
